import Mathlib

set_option linter.unusedVariables false

/-!
Verification development for the HTTP-Frequency prober
(`src/backend py/py1.py`): a shallow embedding of the probe unit
(`fetch_one`), the bounded-concurrency dispatcher (`run_probe`), the
input collector (`get_urls_from_input`) and the report renderer
(`print_report`), together with theorems settling the specification
claims.

The network is modelled by an environment oracle `env : Nat → ReqOutcome`
giving, for each task index (one task per input URL, in creation order),
the outcome of `client.request(method, url)`: a completed HTTP response,
an exception that is an instance of `httpx.HTTPError` (the class caught
by `fetch_one`), or an exception outside that class (such as
`httpx.InvalidURL`, which derives directly from `Exception` and is
raised for malformed URLs that fail URL parsing).  Elapsed time is kept
abstract as clock units (`Nat`).
-/

namespace HTTPFrequency

/-- Outcome record of probing one target, mirroring the Python dataclass
`ProbeResult` with fields `url, ok, status, elapsed_s, bytes_rcv,
final_url, error`. -/
structure ProbeResult where
  url : String
  ok : Bool
  status : Option Nat
  elapsed_s : Option Nat
  bytes_rcv : Option Nat
  final_url : Option String
  error : Option String
deriving Repr, DecidableEq

/-- Environment oracle value: what `await client.request(method, url)`
does for one task.  `response` carries the status code, the elapsed
clock units measured around the await, the body length and the
post-redirect URL; `httpError` is an exception instance of
`httpx.HTTPError` carrying its class name; `otherError` is an exception
NOT an instance of `httpx.HTTPError` (e.g. `httpx.InvalidURL`). -/
inductive ReqOutcome where
  | response (status : Nat) (elapsed : Nat) (bodyLen : Nat) (finalUrl : String)
  | httpError (className : String)
  | otherError (className : String)
deriving Repr, DecidableEq

/-- Whether an outcome is an exception outside `httpx.HTTPError`
(uncaught by `fetch_one`). -/
def ReqOutcome.isOther : ReqOutcome → Bool
  | .otherError _ => true
  | _ => false

/-- Embedding of `fetch_one(client, url, method)`: on a completed
response it builds a `ProbeResult` with `ok = status < 400` and all of
status, elapsed, byte count and final URL populated and `error = None`;
the `except httpx.HTTPError` clause turns an `httpx.HTTPError` into a
failure record whose `error` is the exception class name and every
other optional field `None`; any other exception propagates
(`Except.error`). -/
def fetch_one (url : String) (method : String) (o : ReqOutcome) :
    Except String ProbeResult :=
  match o with
  | .response status elapsed bodyLen finalUrl =>
      .ok { url := url, ok := status < 400, status := some status,
            elapsed_s := some elapsed, bytes_rcv := some bodyLen,
            final_url := some finalUrl, error := none }
  | .httpError className =>
      .ok { url := url, ok := false, status := none, elapsed_s := none,
            bytes_rcv := none, final_url := none, error := some className }
  | .otherError className => .error className

/-- Embedding of `tasks = [asyncio.create_task(bound_fetch(u)) for u in urls]`
followed by `await asyncio.gather(*tasks)`: task `k` probes the `k`-th
URL, and `gather` yields the results in task-creation order, raising
(short-circuiting to `Except.error`) if a task raises an exception that
`fetch_one` did not catch.  `_method` is threaded through unchanged. -/
def gather_from (k : Nat) (urls : List String) (method : String)
    (env : Nat → ReqOutcome) : Except String (List ProbeResult) :=
  match urls with
  | [] => .ok []
  | u :: rest =>
      match fetch_one u method (env k) with
      | .error className => .error className
      | .ok r =>
          match gather_from (k + 1) rest method env with
          | .error className => .error className
          | .ok rs => .ok (r :: rs)

/-- Observable outcome of a whole `run_probe` call: `configError` is an
exception raised during configuration before any request (the
`ValueError` from `asyncio.Semaphore` on a negative value), `hang`
means the call never returns (deadlock), `raised` is an exception
propagating out of `asyncio.gather`, and `results` is a normal
return. -/
inductive RunOutcome where
  | configError (msg : String)
  | hang
  | raised (className : String)
  | results (rs : List ProbeResult)
deriving Repr, DecidableEq

/-- Whether a run outcome is a configuration error. -/
def RunOutcome.isConfigError : RunOutcome → Bool
  | .configError _ => true
  | _ => false

/-- Whether a run outcome is a normal return of results. -/
def RunOutcome.isResults : RunOutcome → Bool
  | .results _ => true
  | _ => false

/-- Embedding of `run_probe(urls, concurrency, timeout, method)`.
`asyncio.Semaphore(concurrency)` raises `ValueError` when the value is
negative; with `concurrency = 0` no task can ever acquire the semaphore,
so a non-empty URL list deadlocks inside `asyncio.gather`; otherwise the
client is built (the `timeout` value is handed to `httpx.Timeout`
unvalidated) and one task per URL runs `bound_fetch`, with `gather`
collecting the results in task-creation order. -/
def run_probe (urls : List String) (concurrency : Int) (timeout : Int)
    (method : String) (env : Nat → ReqOutcome) : RunOutcome :=
  if concurrency < 0 then .configError "ValueError"
  else if concurrency = 0 ∧ urls ≠ [] then .hang
  else
    match gather_from 0 urls method env with
    | .error className => .raised className
    | .ok rs => .results rs

/-! Basic lemmas about the probe unit and the gather loop. -/

/-- Both branches of `fetch_one` copy the `url` argument into the result. -/
theorem fetch_one_url_eq (url method : String) (o : ReqOutcome) (r : ProbeResult)
    (h : fetch_one url method o = .ok r) : r.url = url := by
  cases o <;> simp only [fetch_one] at h <;> first
    | (cases h; rfl)
    | cases h

/-- When the request outcome is not an uncaught exception, `fetch_one`
returns a `ProbeResult`. -/
theorem fetch_one_ok_of_not_other (url method : String) (o : ReqOutcome)
    (h : o.isOther = false) : ∃ r, fetch_one url method o = .ok r := by
  cases o with
  | response s e b f => exact ⟨_, rfl⟩
  | httpError c => exact ⟨_, rfl⟩
  | otherError c => simp [ReqOutcome.isOther] at h

/-- A successful gather produces exactly one result per URL. -/
theorem gather_from_length (urls : List String) :
    ∀ (k : Nat) (method : String) (env : Nat → ReqOutcome) (rs : List ProbeResult),
      gather_from k urls method env = .ok rs → rs.length = urls.length := by
  induction urls with
  | nil =>
      intro k method env rs h
      simp only [gather_from] at h
      cases h
      rfl
  | cons u rest ih =>
      intro k method env rs h
      simp only [gather_from] at h
      cases hf : fetch_one u method (env k) with
      | error e => rw [hf] at h; cases h
      | ok r =>
          rw [hf] at h
          cases hg : gather_from (k + 1) rest method env with
          | error e => rw [hg] at h; cases h
          | ok rs2 =>
              rw [hg] at h
              cases h
              simp [ih (k + 1) method env rs2 hg]

/-- When no task raises an exception outside `httpx.HTTPError`, the gather
loop completes normally. -/
theorem gather_from_ok (urls : List String) :
    ∀ (k : Nat) (method : String) (env : Nat → ReqOutcome),
      (∀ i, i < urls.length → (env (k + i)).isOther = false) →
      ∃ rs, gather_from k urls method env = .ok rs := by
  induction urls with
  | nil => intro k method env henv; exact ⟨[], rfl⟩
  | cons u rest ih =>
      intro k method env henv
      obtain ⟨r, hr⟩ := fetch_one_ok_of_not_other u method (env k)
        (by simpa using henv 0 (Nat.succ_pos _))
      obtain ⟨rs, hrs⟩ := ih (k + 1) method env (fun i hi => by
        have := henv (i + 1) (Nat.succ_lt_succ hi)
        simpa [Nat.add_assoc, Nat.add_comm 1 i] using this)
      refine ⟨r :: rs, ?_⟩
      simp only [gather_from, hr, hrs]

/-- The gather loop keeps results in task-creation order: the i-th result
comes from the i-th URL. -/
theorem gather_from_url_order (urls : List String) :
    ∀ (k : Nat) (method : String) (env : Nat → ReqOutcome) (rs : List ProbeResult),
      gather_from k urls method env = .ok rs →
      ∀ i : Nat, rs[i]?.map ProbeResult.url = urls[i]? := by
  induction urls with
  | nil =>
      intro k method env rs h i
      simp only [gather_from] at h
      cases h
      rfl
  | cons u rest ih =>
      intro k method env rs h i
      simp only [gather_from] at h
      cases hf : fetch_one u method (env k) with
      | error e => rw [hf] at h; cases h
      | ok r =>
          rw [hf] at h
          cases hg : gather_from (k + 1) rest method env with
          | error e => rw [hg] at h; cases h
          | ok rs2 =>
              rw [hg] at h
              cases h
              cases i with
              | zero => simp [fetch_one_url_eq u method (env k) r hf]
              | succ j => simpa using ih (k + 1) method env rs2 hg j

/-- With a concurrency value of at least 1, `run_probe` reaches the gather
phase: no configuration error and no deadlock. -/
theorem run_probe_of_pos (urls : List String) (concurrency timeout : Int)
    (method : String) (env : Nat → ReqOutcome) (hc : 1 ≤ concurrency) :
    run_probe urls concurrency timeout method env =
      (match gather_from 0 urls method env with
       | .error className => .raised className
       | .ok rs => .results rs) := by
  have h1 : ¬ concurrency < 0 := by omega
  have h2 : ¬ (concurrency = 0 ∧ urls ≠ []) := by
    rintro ⟨h, -⟩; omega
  simp only [run_probe, if_neg h1, if_neg h2]

/-- Claim C3: every ProbeResult returned by fetch_one has `ok = true`
exactly when `status` is present and below 400, and in that case `error`
is absent while `elapsed_s`, `bytes_rcv` and `final_url` are present. -/
theorem fetch_one_success_invariant (url method : String) (o : ReqOutcome)
    (r : ProbeResult) (h : fetch_one url method o = .ok r) :
    (r.ok = true ↔ ∃ s, r.status = some s ∧ s < 400) ∧
    (r.ok = true → r.error = none ∧ r.elapsed_s.isSome = true ∧
      r.bytes_rcv.isSome = true ∧ r.final_url.isSome = true) := by
  cases o with
  | response s e b f =>
      simp only [fetch_one] at h
      cases h
      constructor
      · simp only [decide_eq_true_eq, Option.some.injEq]
        exact ⟨fun hs => ⟨s, rfl, hs⟩, fun ⟨t, ht, hlt⟩ => ht ▸ hlt⟩
      · intro _; exact ⟨rfl, rfl, rfl, rfl⟩
  | httpError c =>
      simp only [fetch_one] at h
      cases h
      simp
  | otherError c => simp only [fetch_one] at h; cases h

/-- Witness for C3 at a concrete 200-response outcome. -/
theorem fetch_one_success_invariant_witness :
    (fetch_one "https://a.com" "GET" (.response 200 12 100 "https://a.com/") =
      .ok ⟨"https://a.com", true, some 200, some 12, some 100, some "https://a.com/", none⟩) ∧
    ((true = true ↔ ∃ s, some 200 = some s ∧ s < 400) ∧
     (true = true → (none : Option String) = none ∧ (some 12 : Option Nat).isSome = true ∧
       (some 100 : Option Nat).isSome = true ∧ (some "https://a.com/" : Option String).isSome = true)) :=
  ⟨rfl,
   fetch_one_success_invariant "https://a.com" "GET" (.response 200 12 100 "https://a.com/")
     ⟨"https://a.com", true, some 200, some 12, some 100, some "https://a.com/", none⟩ rfl⟩

/-- Claim C4: the failure split of fetch_one — `ok = false` with a status
present means the server answered unfavorably and `error` is absent;
`ok = false` with no status is a transport failure with `error` present
and elapsed, byte count and final URL all absent. -/
theorem fetch_one_failure_split (url method : String) (o : ReqOutcome)
    (r : ProbeResult) (h : fetch_one url method o = .ok r) :
    (r.ok = false → r.status.isSome = true → r.error = none) ∧
    (r.ok = false → r.status = none → r.error.isSome = true ∧
      r.elapsed_s = none ∧ r.bytes_rcv = none ∧ r.final_url = none) := by
  cases o with
  | response s e b f =>
      simp only [fetch_one] at h
      cases h
      simp
  | httpError c =>
      simp only [fetch_one] at h
      cases h
      simp
  | otherError c => simp only [fetch_one] at h; cases h

/-- Witness for C4 at a concrete 500-response and a concrete timeout. -/
theorem fetch_one_failure_split_witness :
    ((false = false → (some 500 : Option Nat).isSome = true → (none : Option String) = none) ∧
     (false = false → (some 500 : Option Nat) = none → (none : Option String).isSome = true ∧
       (some 30 : Option Nat) = none ∧ (some 77 : Option Nat) = none ∧
       (some "https://b.com/" : Option String) = none)) ∧
    ((false = false → (none : Option Nat).isSome = true → (some "ReadTimeout" : Option String) = none) ∧
     (false = false → (none : Option Nat) = none → (some "ReadTimeout" : Option String).isSome = true ∧
       (none : Option Nat) = none ∧ (none : Option Nat) = none ∧ (none : Option String) = none)) :=
  ⟨fetch_one_failure_split "https://b.com" "GET" (.response 500 30 77 "https://b.com/")
     ⟨"https://b.com", false, some 500, some 30, some 77, some "https://b.com/", none⟩ rfl,
   fetch_one_failure_split "https://c.com" "GET" (.httpError "ReadTimeout")
     ⟨"https://c.com", false, none, none, none, none, some "ReadTimeout"⟩ rfl⟩

/-- Claim C7: on an empty URL list `run_probe` does not hang — it raises
the semaphore configuration error when concurrency is negative and
otherwise returns the empty result list. -/
theorem run_probe_empty_urls (concurrency timeout : Int) (method : String)
    (env : Nat → ReqOutcome) :
    run_probe [] concurrency timeout method env =
      (if concurrency < 0 then .configError "ValueError" else .results []) := by
  by_cases h : concurrency < 0
  · simp [run_probe, h]
  · simp [run_probe, h, gather_from]

/-- When some task in range raises an exception the probe unit does not
catch, the gather loop propagates an exception instead of returning. -/
theorem gather_from_error_of_other (urls : List String) :
    ∀ (k : Nat) (method : String) (env : Nat → ReqOutcome),
      (∃ i : Nat, i < urls.length ∧ (env (k + i)).isOther = true) →
      ∃ name, gather_from k urls method env = .error name := by
  induction urls with
  | nil =>
      intro k method env h
      obtain ⟨i, hi, -⟩ := h
      cases hi
  | cons u rest ih =>
      intro k method env h
      obtain ⟨i, hi, ho⟩ := h
      cases hf : fetch_one u method (env k) with
      | error name =>
          exact ⟨name, by simp only [gather_from, hf]⟩
      | ok r =>
          have hk : (env k).isOther = false := by
            cases henvk : env k with
            | response s e b f => rfl
            | httpError c => rfl
            | otherError c => rw [henvk, fetch_one] at hf; cases hf
          have hiz : i ≠ 0 := by
            intro h0
            subst h0
            rw [Nat.add_zero] at ho
            rw [ho] at hk
            cases hk
          obtain ⟨j, rfl⟩ := Nat.exists_eq_succ_of_ne_zero hiz
          obtain ⟨name, hg⟩ := ih (k + 1) method env
            ⟨j, Nat.lt_of_succ_lt_succ hi, by
              have : k + 1 + j = k + (j + 1) := by omega
              rw [this]; exact ho⟩
          exact ⟨name, by simp only [gather_from, hf, hg]⟩

/-- Counterexample to claim C1 as stated: a non-empty two-URL list with a
valid concurrency where the second URL is malformed, so that `httpx`
raises `httpx.InvalidURL` — which is not an `httpx.HTTPError` and
escapes `fetch_one` — makes `run_probe` raise and return no result
collection at all, rather than two ProbeResults. -/
theorem run_probe_cardinality_counterexample :
    run_probe ["https://ok.com", "https://bad:99999999999"] 2 5 "GET"
      (fun i => if i = 0 then .response 200 9 40 "https://ok.com/"
                else .otherError "InvalidURL") = .raised "InvalidURL" ∧
    (run_probe ["https://ok.com", "https://bad:99999999999"] 2 5 "GET"
      (fun i => if i = 0 then .response 200 9 40 "https://ok.com/"
                else .otherError "InvalidURL")).isResults = false := by
  refine ⟨?_, ?_⟩ <;> rfl

/-- Amended claim C1: for every non-empty URL list of size K (duplicates
allowed) probed with concurrency at least 1, if every per-target failure
is raised as `httpx.HTTPError` (the class `fetch_one` catches), then
`run_probe` returns exactly K ProbeResults, one per input URL, however
many probes succeed or fail; if instead some probe raises an exception
outside `httpx.HTTPError` (as `httpx` does for some malformed URLs),
`run_probe` raises and returns no collection. -/
theorem run_probe_cardinality_amended (urls : List String)
    (concurrency timeout : Int) (method : String) (env : Nat → ReqOutcome)
    (hne : urls ≠ []) (hc : 1 ≤ concurrency) :
    ((∀ i : Nat, i < urls.length → (env i).isOther = false) →
      ∃ rs, run_probe urls concurrency timeout method env = .results rs ∧
        rs.length = urls.length) ∧
    ((∃ i : Nat, i < urls.length ∧ (env i).isOther = true) →
      ∃ name, run_probe urls concurrency timeout method env = .raised name) := by
  constructor
  · intro henv
    obtain ⟨rs, hrs⟩ := gather_from_ok urls 0 method env (fun i hi => by
      simpa using henv i hi)
    refine ⟨rs, ?_, gather_from_length urls 0 method env rs hrs⟩
    rw [run_probe_of_pos urls concurrency timeout method env hc, hrs]
  · intro hother
    obtain ⟨name, hg⟩ := gather_from_error_of_other urls 0 method env (by
      obtain ⟨i, hi, ho⟩ := hother
      exact ⟨i, hi, by simpa using ho⟩)
    refine ⟨name, ?_⟩
    rw [run_probe_of_pos urls concurrency timeout method env hc, hg]

/-- Witness for the amended C1: with both per-target failures raised as
`httpx.HTTPError`, two URLs give two results; with an uncaught exception
on the first URL, the run raises. -/
theorem run_probe_cardinality_amended_witness :
    (∃ rs, run_probe ["https://a.com", "https://b.com"] 2 5 "GET"
        (fun i => if i = 0 then .response 200 12 100 "https://a.com/"
                  else .httpError "ConnectTimeout") = .results rs ∧
      rs.length = 2) ∧
    (∃ name, run_probe ["https://a.com", "https://b.com"] 2 5 "GET"
        (fun _ => .otherError "InvalidURL") = .raised name) :=
  ⟨(run_probe_cardinality_amended ["https://a.com", "https://b.com"] 2 5 "GET"
      (fun i => if i = 0 then .response 200 12 100 "https://a.com/"
                else .httpError "ConnectTimeout")
      (by decide) (by decide)).1
     (fun i _ => by by_cases h : i = 0 <;> simp [h, ReqOutcome.isOther]),
   (run_probe_cardinality_amended ["https://a.com", "https://b.com"] 2 5 "GET"
      (fun _ => .otherError "InvalidURL")
      (by decide) (by decide)).2 ⟨0, by decide, rfl⟩⟩

/-- Claim C10: under the same conditions, `asyncio.gather` keeps
task-creation order, so the i-th result carries the i-th input URL. -/
theorem run_probe_preserves_input_order (urls : List String)
    (concurrency timeout : Int) (method : String) (env : Nat → ReqOutcome)
    (hc : 1 ≤ concurrency)
    (henv : ∀ i : Nat, i < urls.length → (env i).isOther = false) :
    ∃ rs, run_probe urls concurrency timeout method env = .results rs ∧
      rs.length = urls.length ∧
      ∀ i : Nat, rs[i]?.map ProbeResult.url = urls[i]? := by
  obtain ⟨rs, hrs⟩ := gather_from_ok urls 0 method env (fun i hi => by
    simpa using henv i hi)
  refine ⟨rs, ?_, gather_from_length urls 0 method env rs hrs,
    gather_from_url_order urls 0 method env rs hrs⟩
  rw [run_probe_of_pos urls concurrency timeout method env hc, hrs]

/-- Witness for C10: with two URLs probed at concurrency 1, the first
result's URL is the first input URL. -/
theorem run_probe_preserves_input_order_witness :
    (1 ≤ (1 : Int)) ∧
    ∃ rs, run_probe ["https://a.com", "https://b.com"] 1 5 "GET"
        (fun _ => .httpError "ConnectError") = .results rs ∧
      rs.length = 2 ∧
      ∀ i : Nat, rs[i]?.map ProbeResult.url = (["https://a.com", "https://b.com"])[i]? :=
  ⟨by decide,
   run_probe_preserves_input_order ["https://a.com", "https://b.com"] 1 5 "GET"
     (fun _ => .httpError "ConnectError") (by decide) (fun i _ => rfl)⟩

/-- Counterexample to claim C2 as stated: `concurrency = 0` (which is
`< 1`) makes `run_probe` deadlock on a non-empty list rather than fail
with a configuration error, and `timeout = 0` (which is `<= 0`) is
accepted without any configuration error, the run proceeding normally. -/
theorem run_probe_config_validation_counterexample :
    run_probe ["https://a.com"] 0 5 "GET" (fun _ => .httpError "ConnectError") =
      .hang ∧
    (run_probe ["https://a.com"] 0 5 "GET"
      (fun _ => .httpError "ConnectError")).isConfigError = false ∧
    run_probe ["https://a.com"] 1 0 "GET" (fun _ => .httpError "ConnectTimeout") =
      .results [⟨"https://a.com", false, none, none, none, none, some "ConnectTimeout"⟩] ∧
    (run_probe ["https://a.com"] 1 0 "GET"
      (fun _ => .httpError "ConnectTimeout")).isConfigError = false := by
  refine ⟨?_, ?_, ?_, ?_⟩ <;> rfl

/-- Amended claim C2: a negative concurrency raises the semaphore
`ValueError` before any request; concurrency 0 on a non-empty list hangs
instead of failing; `timeout <= 0` is not validated; and with
concurrency at least 1 the call returns results without raising provided
every per-target failure is raised as `httpx.HTTPError`. -/
theorem run_probe_config_validation_amended (urls : List String)
    (concurrency timeout : Int) (method : String) (env : Nat → ReqOutcome) :
    (concurrency < 0 →
      run_probe urls concurrency timeout method env = .configError "ValueError") ∧
    (concurrency = 0 → urls ≠ [] →
      run_probe urls concurrency timeout method env = .hang) ∧
    (1 ≤ concurrency → (∀ i : Nat, i < urls.length → (env i).isOther = false) →
      ∃ rs, run_probe urls concurrency timeout method env = .results rs) := by
  refine ⟨fun h => ?_, fun h hne => ?_, fun hc henv => ?_⟩
  · simp [run_probe, h]
  · have h1 : ¬ concurrency < 0 := by omega
    simp [run_probe, h1, h, hne]
  · obtain ⟨rs, hrs⟩ := gather_from_ok urls 0 method env (fun i hi => by
      simpa using henv i hi)
    refine ⟨rs, ?_⟩
    rw [run_probe_of_pos urls concurrency timeout method env hc, hrs]

/-- Witness for the amended C2 at concrete inputs: concurrency -1 raises
the configuration error, concurrency 0 hangs, concurrency 1 returns. -/
theorem run_probe_config_validation_amended_witness :
    run_probe ["https://a.com"] (-1) 5 "GET" (fun _ => .httpError "ConnectError") =
      .configError "ValueError" ∧
    run_probe ["https://a.com"] 0 5 "GET" (fun _ => .httpError "ConnectError") =
      .hang ∧
    ∃ rs, run_probe ["https://a.com"] 1 5 "GET"
      (fun _ => .httpError "ConnectError") = .results rs :=
  ⟨(run_probe_config_validation_amended ["https://a.com"] (-1) 5 "GET"
      (fun _ => .httpError "ConnectError")).1 (by decide),
   (run_probe_config_validation_amended ["https://a.com"] 0 5 "GET"
      (fun _ => .httpError "ConnectError")).2.1 (by decide) (by decide),
   (run_probe_config_validation_amended ["https://a.com"] 1 5 "GET"
      (fun _ => .httpError "ConnectError")).2.2 (by decide) (fun i _ => rfl)⟩

/-- Counterexample to claim C6 as stated: an exception that is not an
`httpx.HTTPError` — as `httpx` raises for some malformed URLs
(`httpx.InvalidURL` derives from `Exception`, not from `httpx.HTTPError`)
— escapes the `except httpx.HTTPError` clause of `fetch_one` and aborts
the whole batch: `run_probe` raises instead of returning results, and
the sibling probe's result is lost. -/
theorem fetch_one_uncaught_exception_counterexample :
    fetch_one "https://bad^url" "GET" (.otherError "InvalidURL") =
      .error "InvalidURL" ∧
    run_probe ["https://bad^url", "https://ok.com"] 5 5 "GET"
      (fun i => if i = 0 then .otherError "InvalidURL"
                else .response 200 7 3 "https://ok.com/") = .raised "InvalidURL" ∧
    (run_probe ["https://bad^url", "https://ok.com"] 5 5 "GET"
      (fun i => if i = 0 then .otherError "InvalidURL"
                else .response 200 7 3 "https://ok.com/")).isResults = false := by
  refine ⟨?_, ?_, ?_⟩ <;> rfl

/-- Amended claim C6: a probe failure raised as `httpx.HTTPError` never
aborts the batch — `fetch_one` captures it as a ProbeResult with
`ok = false` and the exception class name in `error`, and all sibling
probes still produce their results — but an exception outside
`httpx.HTTPError` (such as `httpx.InvalidURL` for a malformed URL) is
not caught and propagates out of `run_probe`, aborting the batch. -/
theorem fetch_one_failure_capture_amended (urls : List String)
    (concurrency timeout : Int) (method : String) (env : Nat → ReqOutcome)
    (hc : 1 ≤ concurrency)
    (henv : ∀ i : Nat, i < urls.length → (env i).isOther = false) :
    (∀ url name : String, fetch_one url method (.httpError name) =
      .ok ⟨url, false, none, none, none, none, some name⟩) ∧
    (∀ url name : String, fetch_one url method (.otherError name) = .error name) ∧
    ∃ rs, run_probe urls concurrency timeout method env = .results rs ∧
      rs.length = urls.length := by
  refine ⟨fun url name => rfl, fun url name => rfl, ?_⟩
  obtain ⟨rs, hrs⟩ := gather_from_ok urls 0 method env (fun i hi => by
    simpa using henv i hi)
  refine ⟨rs, ?_, gather_from_length urls 0 method env rs hrs⟩
  rw [run_probe_of_pos urls concurrency timeout method env hc, hrs]

/-- Witness for the amended C6: a batch where one probe fails with a
caught `httpx.HTTPError` still returns both results. -/
theorem fetch_one_failure_capture_amended_witness :
    (∀ url name : String, fetch_one url "GET" (.httpError name) =
      .ok ⟨url, false, none, none, none, none, some name⟩) ∧
    (∀ url name : String, fetch_one url "GET" (.otherError name) = .error name) ∧
    ∃ rs, run_probe ["https://a.com", "https://b.com"] 2 5 "GET"
      (fun i => if i = 0 then .httpError "ConnectError"
                else .response 200 7 3 "https://b.com/") = .results rs ∧
      rs.length = 2 :=
  fetch_one_failure_capture_amended ["https://a.com", "https://b.com"] 2 5 "GET"
    (fun i => if i = 0 then .httpError "ConnectError"
              else .response 200 7 3 "https://b.com/")
    (by decide) (fun i _ => by by_cases h : i = 0 <;> simp [h, ReqOutcome.isOther])

/-! Concurrency model for `bound_fetch`.  Each task created by `run_probe`
runs `async with sem: return await fetch_one(...)`: it first acquires one
slot of `asyncio.Semaphore(concurrency)` (possible only while the
semaphore counter is positive; acquiring decrements it), then performs
its probe, and the `async with` block releases the slot (incrementing
the counter) unconditionally on exit — on normal return and on exception
alike.  The interleaving of tasks is modelled as a transition system:
each task is waiting (created, not yet admitted), running (holding a
slot, probe in flight), or done. -/

/-- Phase of one `bound_fetch` task. -/
inductive TaskPhase where
  | waiting
  | running
  | done
deriving Repr, DecidableEq

/-- Scheduler state of one `run_probe` call: the phase of every task and
the current semaphore counter (number of free admission slots). -/
structure DispatchState where
  phases : List TaskPhase
  avail : Nat
deriving Repr, DecidableEq

/-- Initial state: one waiting task per URL, semaphore counter at the
configured concurrency. -/
def initState (numTasks conc : Nat) : DispatchState :=
  ⟨List.replicate numTasks .waiting, conc⟩

/-- Number of tasks whose probe is in flight (tasks holding a slot). -/
def countRunning (s : DispatchState) : Nat :=
  s.phases.countP (fun p => p = TaskPhase.running)

/-- One scheduler step.  `acquire`: a waiting task enters the
`async with sem` block, allowed only while a slot is free, and takes the
slot.  `release`: a running task completes (successfully or not) and the
`async with` exit returns its slot. -/
inductive Step : DispatchState → DispatchState → Prop where
  | acquire (s : DispatchState) (i : Nat)
      (hw : s.phases[i]? = some .waiting) (hav : 0 < s.avail) :
      Step s ⟨s.phases.set i .running, s.avail - 1⟩
  | release (s : DispatchState) (i : Nat)
      (hr : s.phases[i]? = some .running) :
      Step s ⟨s.phases.set i .done, s.avail + 1⟩

/-- States reachable from a start state by scheduler steps. -/
inductive Reachable (start : DispatchState) : DispatchState → Prop where
  | refl : Reachable start start
  | step {s t : DispatchState} : Reachable start s → Step s t → Reachable start t

/-- Setting an element changes a countP tally by swapping the old
element's contribution for the new one's. -/
theorem countP_set_swap (l : List TaskPhase) (p : TaskPhase → Bool) :
    ∀ (i : Nat) (a b : TaskPhase), l[i]? = some a →
      (l.set i b).countP p + (if p a then 1 else 0) =
        l.countP p + (if p b then 1 else 0) := by
  induction l with
  | nil => intro i a b h; cases h
  | cons x t ih =>
      intro i a b h
      cases i with
      | zero =>
          simp only [List.getElem?_cons_zero] at h
          cases h
          simp only [List.set, List.countP_cons]
          omega
      | succ j =>
          simp only [List.getElem?_cons_succ] at h
          simp only [List.set, List.countP_cons]
          have := ih j a b h
          omega

/-- The semaphore invariant: in every reachable state, the tasks holding
a slot and the free slots together account for the configured
concurrency. -/
theorem running_add_avail_invariant (numTasks conc : Nat) (s : DispatchState)
    (h : Reachable (initState numTasks conc) s) :
    countRunning s + s.avail = conc := by
  induction h with
  | refl =>
      have hz : countRunning (initState numTasks conc) = 0 := by
        simp only [countRunning, initState]
        induction numTasks with
        | zero => rfl
        | succ n ihn =>
            rw [List.replicate, List.countP_cons]
            simp only [ihn]
            simp
      rw [hz]
      simp [initState]
  | @step t u hr hs ih =>
      cases hs with
      | acquire i hw hav =>
          have hswap := countP_set_swap t.phases
            (fun p => p = TaskPhase.running) i .waiting .running hw
          simp only [countRunning] at ih ⊢
          simp at hswap
          omega
      | release i hrun =>
          have hswap := countP_set_swap t.phases
            (fun p => p = TaskPhase.running) i .running .done hrun
          simp only [countRunning] at ih ⊢
          simp at hswap
          omega

/-- Claim C5: in every state reachable during a run, at most
`concurrency` probes are simultaneously in flight; a task that completes
its probe releases its slot unconditionally (the release step needs no
further precondition), and after that release any still-waiting task can
acquire the freed slot. -/
theorem concurrency_bound (numTasks conc : Nat) (s : DispatchState)
    (h : Reachable (initState numTasks conc) s) :
    countRunning s ≤ conc ∧
    (∀ i : Nat, s.phases[i]? = some .running →
      Step s ⟨s.phases.set i .done, s.avail + 1⟩) ∧
    (∀ i j : Nat, s.phases[i]? = some .running →
      (s.phases.set i .done)[j]? = some .waiting →
      Step ⟨s.phases.set i .done, s.avail + 1⟩
        ⟨(s.phases.set i .done).set j .running, s.avail⟩) := by
  refine ⟨?_, fun i hi => Step.release s i hi, fun i j hi hj => ?_⟩
  · have := running_add_avail_invariant numTasks conc s h
    omega
  · have hstep := Step.acquire ⟨s.phases.set i .done, s.avail + 1⟩ j hj
      (Nat.succ_pos _)
    simpa using hstep

/-- Witness for C5 at a concrete reachable state: two tasks, concurrency
1, the first task admitted and running. -/
theorem concurrency_bound_witness :
    countRunning ⟨[TaskPhase.running, TaskPhase.waiting], 0⟩ ≤ 1 :=
  (concurrency_bound 2 1 ⟨[TaskPhase.running, TaskPhase.waiting], 0⟩
    (Reachable.step Reachable.refl
      (Step.acquire (initState 2 1) 0 rfl Nat.one_pos))).1

/-! Input collection (`get_urls_from_input`).  The interactive loop reads
one line per iteration, strips surrounding whitespace, stops at the
first blank line, defaults the scheme to `https://` when the line starts
with neither `http://` nor `https://`, and finally removes duplicates
keeping first occurrences.  The stream of typed lines is modelled as a
list of strings.  String primitives are re-implemented over character
lists so that concrete evaluation stays kernel-reducible. -/

/-- Character-list core of the `str.startswith` test. -/
def chars_begin_with : List Char → List Char → Bool
  | [], _ => true
  | _ :: _, [] => false
  | p :: ps, c :: cs => p = c && chars_begin_with ps cs

/-- Model of Python `s.startswith(p)`. -/
def begins_with (p s : String) : Bool :=
  chars_begin_with p.data s.data

/-- Characters Python `str.strip()` removes. -/
def py_isspace (c : Char) : Bool :=
  c = ' ' || c = '\t' || c = '\n' || c = '\r' || c = '\x0b' || c = '\x0c'

/-- Model of Python `s.strip()`: drop whitespace from both ends. -/
def py_strip (s : String) : String :=
  ⟨((s.data.dropWhile py_isspace).reverse.dropWhile py_isspace).reverse⟩

/-- Scheme defaulting from the input loop: when the stripped line starts
with neither `http://` nor `https://`, the code prepends `https://`. -/
def normalize_url (linha : String) : String :=
  if begins_with "http://" linha || begins_with "https://" linha then linha
  else "https://" ++ linha

/-- URLs appended by the input loop, in typed order: strip each line,
stop at the first blank one, default the scheme. -/
def entered_urls (lines : List String) : List String :=
  ((lines.map py_strip).takeWhile (fun s => s ≠ "")).map normalize_url

/-- Deduplication pass of `get_urls_from_input` (`seen` set and `uniq`
accumulator): keep a URL only when not seen before. -/
def uniq_aux (seen : List String) : List String → List String
  | [] => []
  | u :: rest =>
      if u ∈ seen then uniq_aux seen rest
      else u :: uniq_aux (u :: seen) rest

/-- Embedding of `get_urls_from_input()` on a modelled line stream:
collect, normalize, then deduplicate keeping first occurrences. -/
def get_urls_from_input (lines : List String) : List String :=
  uniq_aux [] (entered_urls lines)

/-- Specification-level first-occurrence deduplication: keep the head
and delete every later copy of it, recursively. -/
def spec_dedup_first (l : List String) : List String :=
  match l with
  | [] => []
  | x :: xs => x :: spec_dedup_first (xs.filter (fun y => y ≠ x))
termination_by l.length
decreasing_by
  simp only [List.length_cons]
  exact Nat.lt_succ_of_le (List.length_filter_le _ _)

/-- Equation lemma: deduplicating the empty list gives the empty list. -/
theorem spec_dedup_first_nil : spec_dedup_first [] = [] := by
  rw [spec_dedup_first.eq_def]

/-- Equation lemma: deduplication keeps the head and recurses on the tail
with the head's copies removed. -/
theorem spec_dedup_first_cons (x : String) (xs : List String) :
    spec_dedup_first (x :: xs) =
      x :: spec_dedup_first (xs.filter (fun y => y ≠ x)) := by
  rw [spec_dedup_first.eq_def]

/-- Filtering by two membership conditions in sequence is filtering by
membership in the extended seen list. -/
theorem filter_filter_cons_seen (u : String) (seen : List String) :
    ∀ rest : List String,
      (rest.filter (fun y => y ∉ seen)).filter (fun y => y ≠ u) =
        rest.filter (fun y => y ∉ u :: seen) := by
  intro rest
  induction rest with
  | nil => rfl
  | cons a t ih =>
      by_cases h2 : a = u
      · subst h2
        by_cases h1 : a ∈ seen <;>
          simp [List.filter_cons, h1, List.mem_cons, ih]
      · by_cases h1 : a ∈ seen <;>
          simp [List.filter_cons, h1, h2, List.mem_cons, ih]

/-- The dedup loop computes spec-level first-occurrence deduplication of
the not-yet-seen elements. -/
theorem uniq_aux_eq_spec_dedup (l : List String) :
    ∀ seen : List String,
      uniq_aux seen l = spec_dedup_first (l.filter (fun y => y ∉ seen)) := by
  induction l with
  | nil => intro seen; rw [List.filter_nil, spec_dedup_first_nil]; rfl
  | cons u rest ih =>
      intro seen
      by_cases h : u ∈ seen
      · have e : (decide (u ∉ seen)) = false := by simpa using h
        simp only [uniq_aux, if_pos h, List.filter_cons, e,
          Bool.false_eq_true, if_false]
        exact ih seen
      · have e : (decide (u ∉ seen)) = true := by simpa using h
        simp only [uniq_aux, if_neg h, List.filter_cons, e, if_true]
        rw [spec_dedup_first_cons, filter_filter_cons_seen, ih (u :: seen)]

/-- Every element of the deduplicated list occurs in the original. -/
theorem mem_of_mem_spec_dedup_first (y : String) :
    ∀ l : List String, y ∈ spec_dedup_first l → y ∈ l := by
  intro l
  induction l using spec_dedup_first.induct with
  | case1 => rw [spec_dedup_first_nil]; exact fun h => h
  | case2 x xs ih =>
      rw [spec_dedup_first_cons]
      intro h
      rcases List.mem_cons.mp h with h | h
      · exact h ▸ List.mem_cons_self x xs
      · exact List.mem_cons_of_mem x (List.mem_of_mem_filter (ih h))

/-- Deduplicated output: first-occurrence deduplication yields a list
with no duplicates. -/
theorem nodup_spec_dedup_first :
    ∀ l : List String, (spec_dedup_first l).Nodup := by
  intro l
  induction l using spec_dedup_first.induct with
  | case1 => rw [spec_dedup_first_nil]; exact List.nodup_nil
  | case2 x xs ih =>
      rw [spec_dedup_first_cons]
      refine List.nodup_cons.mpr ⟨fun hx => ?_, ih⟩
      have := List.of_mem_filter (mem_of_mem_spec_dedup_first x _ hx)
      simp at this

/-- Membership survives first-occurrence deduplication. -/
theorem mem_spec_dedup_first_of_mem (y : String) :
    ∀ l : List String, y ∈ l → y ∈ spec_dedup_first l := by
  intro l
  induction l using spec_dedup_first.induct with
  | case1 => intro h; cases h
  | case2 x xs ih =>
      rw [spec_dedup_first_cons]
      intro h
      rcases List.mem_cons.mp h with h | h
      · exact h ▸ List.mem_cons_self x _
      · by_cases hxy : y = x
        · exact hxy ▸ List.mem_cons_self y _
        · exact List.mem_cons_of_mem x
            (ih (List.mem_filter.mpr ⟨h, by simpa using hxy⟩))

/-- Claim C8: `get_urls_from_input` returns the typed entries with the
secure scheme `https://` prepended to those lacking an `http://` or
`https://` start, deduplicated keeping the order of first occurrence —
it equals spec-level first-occurrence deduplication of the normalized
entries, the output has no duplicates, and membership matches the
normalized entries. -/
theorem get_urls_from_input_spec (lines : List String) :
    get_urls_from_input lines = spec_dedup_first (entered_urls lines) ∧
    (∀ s : String, begins_with "http://" s = false →
      begins_with "https://" s = false → normalize_url s = "https://" ++ s) ∧
    (∀ s : String, (begins_with "http://" s = true ∨
      begins_with "https://" s = true) → normalize_url s = s) ∧
    (get_urls_from_input lines).Nodup ∧
    (∀ u : String, u ∈ get_urls_from_input lines ↔ u ∈ entered_urls lines) := by
  have hfilter : ∀ l : List String, l.filter (fun y => y ∉ ([] : List String)) = l := by
    intro l
    induction l with
    | nil => rfl
    | cons a t ih => simp [List.filter_cons, ih]
  have hmain : get_urls_from_input lines = spec_dedup_first (entered_urls lines) := by
    rw [get_urls_from_input, uniq_aux_eq_spec_dedup, hfilter]
  refine ⟨hmain, fun s h1 h2 => ?_, fun s h => ?_, ?_, fun u => ?_⟩
  · simp [normalize_url, h1, h2]
  · rcases h with h | h <;> simp [normalize_url, h]
  · rw [hmain]; exact nodup_spec_dedup_first _
  · rw [hmain]
    exact ⟨mem_of_mem_spec_dedup_first u _, mem_spec_dedup_first_of_mem u _⟩

/-- Witness for C8 on a concrete typed session: a bare host gets the
secure scheme, an explicit http URL is kept, the duplicate of the bare
host is dropped, and collection stops at the blank line. -/
theorem get_urls_from_input_spec_witness :
    normalize_url "example.com" = "https://" ++ "example.com" ∧
    normalize_url "http://plain.org" = "http://plain.org" ∧
    get_urls_from_input ["example.com", "http://plain.org", " example.com ", "", "late.io"] =
      spec_dedup_first (entered_urls
        ["example.com", "http://plain.org", " example.com ", "", "late.io"]) ∧
    (get_urls_from_input
      ["example.com", "http://plain.org", " example.com ", "", "late.io"]).Nodup ∧
    get_urls_from_input ["example.com", "http://plain.org", " example.com ", "", "late.io"] =
      ["https://example.com", "http://plain.org"] :=
  ⟨(get_urls_from_input_spec []).2.1 "example.com" (by decide) (by decide),
   (get_urls_from_input_spec []).2.2.1 "http://plain.org" (Or.inl (by decide)),
   (get_urls_from_input_spec
      ["example.com", "http://plain.org", " example.com ", "", "late.io"]).1,
   (get_urls_from_input_spec
      ["example.com", "http://plain.org", " example.com ", "", "late.io"]).2.2.2.1,
   by decide⟩

/-! Report renderer (`print_report`).  The code splits the results into
`ok = [r for r in results if r.ok and r.elapsed_s is not None]` and
`fail = [r for r in results if not r.ok]`, sorts the first list
ascending by `elapsed_s` and prints it ranked, then prints one line per
failure showing `r.error or ('HTTP ' + str(r.status))`.  The rendering
is modelled as a structure holding the two lists and the failure lines;
the printed text around them is fixed formatting. -/

/-- Success list of `print_report`: results with `ok` set and an elapsed
measurement present. -/
def ok_list (results : List ProbeResult) : List ProbeResult :=
  results.filter (fun r => r.ok && r.elapsed_s.isSome)

/-- Failure list of `print_report`: results with `ok` unset. -/
def fail_list (results : List ProbeResult) : List ProbeResult :=
  results.filter (fun r => !r.ok)

/-- Sort key comparison used by `sorted(ok, key=lambda r: r.elapsed_s)`. -/
def elapsed_le (a b : ProbeResult) : Bool :=
  a.elapsed_s.getD 0 ≤ b.elapsed_s.getD 0

/-- Python `str(...)` on the optional status. -/
def status_str : Option Nat → String
  | some s => toString s
  | none => "None"

/-- Failure line of the report: `r.error or ('HTTP ' + str(r.status))`
after the URL — Python's `or` falls back when `error` is `None` or the
empty string. -/
def fail_line (r : ProbeResult) : String :=
  " - " ++ r.url ++ "  ->  erro: " ++
    (match r.error with
     | some e => if e = "" then "HTTP " ++ status_str r.status else e
     | none => "HTTP " ++ status_str r.status)

/-- Structured content of the rendered report. -/
structure Report where
  successes : List ProbeResult
  failures : List ProbeResult
  failure_lines : List String
deriving Repr, DecidableEq

/-- Embedding of `print_report(results)`: successes sorted ascending by
elapsed time, failures in input order with their rendered lines. -/
def print_report (results : List ProbeResult) : Report :=
  { successes := (ok_list results).mergeSort elapsed_le
    failures := fail_list results
    failure_lines := (fail_list results).map fail_line }

/-- On results satisfying the ProbeResult invariant (`ok` implies elapsed
present), the success list is exactly the `ok = true` part. -/
theorem ok_list_eq_filter_ok (results : List ProbeResult)
    (hwf : ∀ r ∈ results, r.ok = true → r.elapsed_s.isSome = true) :
    ok_list results = results.filter (fun r => r.ok) := by
  unfold ok_list
  induction results with
  | nil => rfl
  | cons a t ih =>
      have ha := hwf a (List.mem_cons_self a t)
      have ht := ih (fun r hr h => hwf r (List.mem_cons_of_mem a hr) h)
      cases hok : a.ok with
      | false => simpa [List.filter_cons, hok] using ht
      | true => simpa [List.filter_cons, hok, ha hok] using ht

/-- Claim C9: `print_report` partitions its input into successes
(`ok = true`) and failures (`ok = false`) — together they permute the
input and each side has the stated `ok` value — renders the successes
sorted ascending by elapsed time, and renders each failure line showing
the error string when present and otherwise the numeric status code. -/
theorem print_report_spec (results : List ProbeResult)
    (hwf : ∀ r ∈ results, r.ok = true → r.elapsed_s.isSome = true)
    (herr : ∀ r ∈ results, r.error ≠ some "") :
    ((print_report results).successes ++ (print_report results).failures).Perm
      results ∧
    (∀ r ∈ (print_report results).successes, r.ok = true) ∧
    (∀ r ∈ (print_report results).failures, r.ok = false) ∧
    (print_report results).successes.Pairwise (fun a b => elapsed_le a b = true) ∧
    (print_report results).failure_lines =
      (print_report results).failures.map fail_line ∧
    (∀ r ∈ (print_report results).failures,
      (∀ e, r.error = some e →
        fail_line r = " - " ++ r.url ++ "  ->  erro: " ++ e) ∧
      (r.error = none →
        fail_line r = " - " ++ r.url ++ "  ->  erro: " ++
          ("HTTP " ++ status_str r.status))) := by
  have hperm1 : (print_report results).successes.Perm (ok_list results) :=
    List.mergeSort_perm (ok_list results) elapsed_le
  have hok := ok_list_eq_filter_ok results hwf
  refine ⟨?_, ?_, ?_, ?_, rfl, ?_⟩
  · refine ((hperm1.append_right _).trans ?_)
    rw [hok]
    exact List.filter_append_perm (fun r => r.ok) results
  · intro r hr
    have : r ∈ ok_list results := hperm1.mem_iff.mp hr
    rw [hok] at this
    simpa using (List.mem_filter.mp this).2
  · intro r hr
    have := (List.mem_filter.mp hr).2
    simpa using this
  · exact List.sorted_mergeSort
      (fun a b c hab hbc => by
        simp only [elapsed_le, decide_eq_true_eq] at hab hbc ⊢
        omega)
      (fun a b => by
        simp only [elapsed_le, Bool.or_eq_true, decide_eq_true_eq]
        omega)
      (ok_list results)
  · intro r hr
    have hrmem : r ∈ results := List.mem_filter.mp hr |>.1
    refine ⟨fun e he => ?_, fun he => ?_⟩
    · have hne : e ≠ "" := fun h0 => herr r hrmem (h0 ▸ he)
      simp [fail_line, he, hne]
    · simp [fail_line, he]

/-- Witness for C9 on three concrete results: one success, one
unfavorable 404 response, one transport failure. -/
theorem print_report_spec_witness :
    (((print_report
        [⟨"https://a.com", true, some 200, some 12, some 100, some "https://a.com/", none⟩,
         ⟨"https://b.com", false, some 404, some 30, some 50, some "https://b.com/", none⟩,
         ⟨"https://c.com", false, none, none, none, none, some "ConnectTimeout"⟩]).successes ++
      (print_report
        [⟨"https://a.com", true, some 200, some 12, some 100, some "https://a.com/", none⟩,
         ⟨"https://b.com", false, some 404, some 30, some 50, some "https://b.com/", none⟩,
         ⟨"https://c.com", false, none, none, none, none, some "ConnectTimeout"⟩]).failures).Perm
      [⟨"https://a.com", true, some 200, some 12, some 100, some "https://a.com/", none⟩,
       ⟨"https://b.com", false, some 404, some 30, some 50, some "https://b.com/", none⟩,
       ⟨"https://c.com", false, none, none, none, none, some "ConnectTimeout"⟩]) :=
  (print_report_spec
    [⟨"https://a.com", true, some 200, some 12, some 100, some "https://a.com/", none⟩,
     ⟨"https://b.com", false, some 404, some 30, some 50, some "https://b.com/", none⟩,
     ⟨"https://c.com", false, none, none, none, none, some "ConnectTimeout"⟩]
    (by decide) (by decide)).1

end HTTPFrequency
